import Mathlib

/-!
Verification of the data-cleaning / filter / load / query pipeline of
`imdb_visualization.py` (IMDb 2024 dashboard).

The Python script is shallowly embedded: every Python string operation is
modelled on `List Char` (the `.data` of a `String`), Python `float` values
produced by parsing short decimal literals are modelled exactly as decimal
numbers `m * 10 ^ k` (structure `Dec`), Python `int` is `Int`, pandas
missing values (`NaN` / `None`) are `Option`.  Python's binary floating
point is modelled by exact decimal arithmetic; this is faithful for the
decimal magnitudes appearing in vote strings (no overflow, and the products
with 10^3 / 10^6 considered here stay far from representation boundaries).
-/

namespace IMDB

/-! ## Python string primitives, on lists of characters -/

/-- Whitespace set of Python `str.strip()` / regex `\s` (ASCII part). -/
def pyIsSpace (c : Char) : Bool :=
  c = ' ' || c = '\t' || c = '\n' || c = '\r' || c = '\x0b' || c = '\x0c'

/-- Python `s.strip()`: drop leading and trailing whitespace. -/
def pyStrip (cs : List Char) : List Char :=
  ((cs.dropWhile pyIsSpace).reverse.dropWhile pyIsSpace).reverse

/-- Python `s.replace(",", "")`: remove every comma. -/
def removeCommas (cs : List Char) : List Char :=
  cs.filter (fun c => c ≠ ',')

/-- Python `s.endswith(c)` for a one-character suffix. -/
def endsWithChar (cs : List Char) (c : Char) : Bool :=
  cs.getLast? == some c

/-- Python `c in s` for a single character (the `"h" in s` tests). -/
def hasChar (cs : List Char) (c : Char) : Bool :=
  decide (c ∈ cs)

/-- Numeric value of a list of decimal digits (most significant first). -/
def digitsToNat (cs : List Char) : Nat :=
  cs.foldl (fun a c => 10 * a + (c.toNat - 48)) 0

/-! ## Exact decimals standing in for Python floats -/

/-- Exact decimal number: `⟨m, k⟩` denotes `m * 10 ^ k`.  Stands in for the
Python `float` produced by `float(...)` on a decimal literal; arithmetic on
these values is exact where CPython rounds to binary, which agrees with
CPython on the short decimal strings that occur as vote counts. -/
structure Dec where
  m : Int
  k : Int
deriving DecidableEq, Repr

/-- Read an optional leading sign, as Python's float grammar does.
Returns (isNegative, rest). -/
def readSign (cs : List Char) : Bool × List Char :=
  match cs with
  | [] => (false, [])
  | c :: t =>
    if c = '-' then (true, t)
    else if c = '+' then (false, t) else (false, c :: t)

/-- Python `float(s)` on an already-stripped string, restricted to the plain
decimal grammar `[+-] digits [. digits]` / `[+-] . digits` that vote and
rating strings actually use.  Exotic inputs CPython also accepts (scientific
notation, `inf`, `nan`, digit-group underscores) are modelled as parse
failures; in `votes_to_int` both sides then take the digit-recovery path. -/
def parseFloat (cs : List Char) : Option Dec :=
  let p := readSign cs
  let ipq := p.2.span Char.isDigit
  let body : Option (Nat × Nat) :=
    match ipq.2 with
    | [] => if ipq.1.isEmpty then none else some (digitsToNat ipq.1, 0)
    | '.' :: t =>
      let fpq := t.span Char.isDigit
      if fpq.2.isEmpty then
        if ipq.1.isEmpty && fpq.1.isEmpty then none
        else some (digitsToNat (ipq.1 ++ fpq.1), fpq.1.length)
      else none
    | _ => none
  body.map fun vf =>
    ⟨if p.1 then -(vf.1 : Int) else (vf.1 : Int), -(vf.2 : Int)⟩

/-- Python `int(x)` on a (modelled) float: truncation toward zero. -/
def decTrunc (d : Dec) : Int :=
  if 0 ≤ d.k then d.m * 10 ^ d.k.toNat
  else Int.tdiv d.m (10 ^ (-d.k).toNat)

/-- Python `round(x)` on a (modelled) float: round half to even. -/
def decRound (d : Dec) : Int :=
  if 0 ≤ d.k then d.m * 10 ^ d.k.toNat
  else
    let n : Int := 10 ^ (-d.k).toNat
    let f := Int.fdiv d.m n
    let r := d.m - f * n
    if 2 * r < n then f
    else if n < 2 * r then f + 1
    else if f % 2 = 0 then f else f + 1

/-! ## `votes_to_int` (source lines 65-78) -/

/-- Body of `votes_to_int` after `s = str(v).replace(",", "").strip()`:
the `try` branch handles a `K`/`k` suffix (numeric prefix times 1000,
truncated by `int(...)`), an `M`/`m` suffix (times 1 000 000), or a bare
float; the bare `except` branch keeps only the digit characters and reads
them as an integer, 0 when no digit remains. -/
def votesCore (s : List Char) : Int :=
  let exceptPath : Int :=
    let ds := s.filter Char.isDigit
    if ds.isEmpty then 0 else (digitsToNat ds : Int)
  if endsWithChar s 'K' || endsWithChar s 'k' then
    match parseFloat s.dropLast with
    | some d => decTrunc ⟨d.m, d.k + 3⟩
    | none => exceptPath
  else if endsWithChar s 'M' || endsWithChar s 'm' then
    match parseFloat s.dropLast with
    | some d => decTrunc ⟨d.m, d.k + 6⟩
    | none => exceptPath
  else
    match parseFloat s with
    | some d => decTrunc d
    | none => exceptPath

/-- Embeds `votes_to_int` (source lines 65-78).  `none` is a pandas missing
value (`pd.isna(v)`), mapped to 0. -/
def votes_to_int : Option String → Int
  | none => 0
  | some v => votesCore (pyStrip (removeCommas v.data))

/-! ## `duration_to_minutes` (source lines 83-105) -/

/-- Match of the regex `(\d+)\s*c` anchored at the current position: a
nonempty maximal digit run, then any whitespace, then the literal `c`.
(The pattern admits no backtracking: digits given back would have to be
matched by `\s*` or the literal, which is impossible.) -/
def matchNumTokenAt (c : Char) (cs : List Char) : Option Nat :=
  let dsq := cs.span Char.isDigit
  if dsq.1.isEmpty then none
  else
    match dsq.2.dropWhile pyIsSpace with
    | c' :: _ => if c' = c then some (digitsToNat dsq.1) else none
    | [] => none

/-- Python `re.search(r"(\d+)\s*c", s)`: value of group 1 of the leftmost
match, scanning candidate start positions left to right. -/
def searchNumToken (c : Char) : List Char → Option Nat
  | [] => none
  | x :: t =>
    match matchNumTokenAt c (x :: t) with
    | some n => some n
    | none => searchNumToken c t

/-- Embeds `duration_to_minutes` (source lines 83-105): search independently
for an `<N>h` and an `<N>m` token (each search guarded by a `'h' in s` /
`'m' in s` test), sum hours*60 + minutes, and return `None` when the total
is 0.  The source's `try/except` cannot fire: `int` on a digit run never
raises in Python. -/
def duration_to_minutes : Option String → Option Nat
  | none => none
  | some v =>
    let cs := v.data
    let hrs := if hasChar cs 'h' then (searchNumToken 'h' cs).getD 0 else 0
    let mins := if hasChar cs 'm' then (searchNumToken 'm' cs).getD 0 else 0
    let total := hrs * 60 + mins
    if 0 < total then some total else none

/-! ## Rating normalization (source line 62) -/

/-- Value of a modelled float as a rational number. -/
def decToQ (d : Dec) : ℚ :=
  if 0 ≤ d.k then mkRat (d.m * 10 ^ d.k.toNat) 1
  else mkRat d.m (10 ^ (-d.k).toNat)

/-- Embeds source line 62: strip the rating text, map the exact strings `""`
and `"N/A"` to missing, then coerce to a number, with parse failures also
becoming missing (`errors="coerce"`). -/
def parse_rating : Option String → Option ℚ
  | none => none
  | some v =>
    let s := pyStrip v.data
    if s.isEmpty || s == "N/A".data then none
    else (parseFloat s).map decToQ

/-! ## Records and the filter engine (source lines 150-162) -/

/-- One row of the dataset after normalization: raw `title`/`genre` plus the
three derived columns `rating` (float or NaN), `votes_num`, `duration_min`. -/
structure Record where
  title : String
  genre : Option String
  rating : Option ℚ
  votes_num : Int
  duration_min : Option Nat
deriving DecidableEq, Repr

/-- One raw row as loaded from the store or the CSV (all fields nullable). -/
structure RawRow where
  title : String
  genre : Option String
  rating : Option String
  votes : Option String
  duration : Option String
deriving DecidableEq, Repr

/-- The cleaning pass (source lines 62, 80, 105) applied to one row. -/
def normalizeRow (r : RawRow) : Record :=
  { title := r.title
    genre := r.genre
    rating := parse_rating r.rating
    votes_num := votes_to_int r.votes
    duration_min := duration_to_minutes r.duration }

/-- The cleaning pass applied to the whole dataset. -/
def normalize (rows : List RawRow) : List Record :=
  rows.map normalizeRow

/-- Word-by-word matcher behind `beginsWith`: the pattern is a prefix. -/
def begMatch : List Char → List Char → Bool
  | [], _ => true
  | _ :: _, [] => false
  | a :: as, b :: bs => a == b && begMatch as bs

/-- Substring test: does `pat` occur contiguously inside the second list? -/
def subMatch (pat : List Char) : List Char → Bool
  | [] => pat.isEmpty
  | b :: bs => begMatch pat (b :: bs) || subMatch pat bs

/-- Embeds `Series.str.contains(pat, case=False)` (source line 152) for the
label strings the selectbox offers: case-insensitive substring containment.
(pandas compiles the label as a regex with `re.IGNORECASE`; for labels free
of regex metacharacters, as genre labels are, that is substring search.
`Char.toLower` lowercases ASCII, enough for IMDb genre labels.) -/
def ciContains (hay pat : String) : Bool :=
  subMatch (pat.data.map Char.toLower) (hay.data.map Char.toLower)

/-- Duration selectbox values (source line 147): `"All"`, `"< 2 hrs"`,
`"2-3 hrs"`, `"> 3 hrs"`. -/
inductive DurationChoice
  | all
  | under2h
  | from2to3h
  | over3h
deriving DecidableEq, Repr

/-- The four user-selected predicates of the filter panel (source lines
136-147): a single genre label (`"All"` disables), the minimum-rating
slider, the minimum-votes input, and the duration bucket. -/
structure FilterSpec where
  genre_choice : String
  min_rating : ℚ
  min_votes : Int
  duration_choice : DurationChoice
deriving DecidableEq, Repr

/-- Genre predicate of source line 152: `fillna("")` then case-insensitive
containment of the selected label. -/
def genrePred (g : String) (r : Record) : Bool :=
  ciContains (r.genre.getD "") g

/-- Rating predicate of source line 153: `rating.fillna(0) >= min_rating`. -/
def ratingPred (t : ℚ) (r : Record) : Bool :=
  decide (t ≤ r.rating.getD 0)

/-- Votes predicate of source line 154: `votes_num.fillna(0) >= min_votes`
(`votes_num` is never missing, so `fillna(0)` is the identity there). -/
def votesPred (t : Int) (r : Record) : Bool :=
  decide (t ≤ r.votes_num)

/-- Duration predicate of source lines 157-162: `notna` plus the bucket
range test; the `all` bucket is handled by the guard on line 156. -/
def durationPred : DurationChoice → Record → Bool
  | .all, _ => true
  | .under2h, r =>
    match r.duration_min with
    | some d => decide (d < 120)
    | none => false
  | .from2to3h, r =>
    match r.duration_min with
    | some d => decide (120 ≤ d) && decide (d ≤ 180)
    | none => false
  | .over3h, r =>
    match r.duration_min with
    | some d => decide (180 < d)
    | none => false

/-- Source lines 151-152: the genre filter stage, skipped for `"All"`. -/
def applyGenre (g : String) (ds : List Record) : List Record :=
  if g ≠ "All" then ds.filter (genrePred g) else ds

/-- Source line 153: the rating filter stage (always applied). -/
def applyRating (t : ℚ) (ds : List Record) : List Record :=
  ds.filter (ratingPred t)

/-- Source line 154: the votes filter stage (always applied). -/
def applyVotes (t : Int) (ds : List Record) : List Record :=
  ds.filter (votesPred t)

/-- Source lines 156-162: the duration filter stage, skipped for `all`. -/
def applyDuration (c : DurationChoice) (ds : List Record) : List Record :=
  if c ≠ DurationChoice.all then ds.filter (durationPred c) else ds

/-- The whole filter block (source lines 150-162), applied in source order:
genre, then rating, then votes, then duration. -/
def applyFilters (fs : FilterSpec) (ds : List Record) : List Record :=
  applyDuration fs.duration_choice
    (applyVotes fs.min_votes
      (applyRating fs.min_rating
        (applyGenre fs.genre_choice ds)))

/-- Conjunction of the four predicates, with the two skip-guards written as
disjuncts: the logical-AND reading of the filter block. -/
def recordMatches (fs : FilterSpec) (r : Record) : Bool :=
  (fs.genre_choice == "All" || genrePred fs.genre_choice r)
    && ratingPred fs.min_rating r
    && votesPred fs.min_votes r
    && (fs.duration_choice == DurationChoice.all
        || durationPred fs.duration_choice r)

/-! ## Data loading and session flow (source lines 28-58, 107-129) -/

/-- The external world the script reads: the five credential environment
variables (source lines 21-25), the outcome a full-table read against the
store would have (`Except.error` = `SQLAlchemyError`), and the fallback CSV
(present or not, and its rows when present). -/
structure Env where
  db_user : Option String
  db_pass : Option String
  db_host : Option String
  db_name : Option String
  dbTable : Except String (List RawRow)
  csv_exists : Bool
  csvRows : List RawRow

/-- Python truthiness of an optional environment string: set and nonempty. -/
def truthy (o : Option String) : Bool :=
  !(o.getD "").data.isEmpty

/-- Embeds `get_engine` (source lines 28-32): an engine is built exactly
when user, password, host and database name are all truthy; the host
defaults to `"localhost"` (source line 23). -/
def engineConfigured (e : Env) : Bool :=
  truthy e.db_user && truthy e.db_pass
    && !(e.db_host.getD "localhost").data.isEmpty && truthy e.db_name

/-- User-visible notices the load and halt steps emit. -/
inductive Msg
  | infoLoadedDB
  | warnDBFailed (err : String)
  | infoLoadedCSV
  | errorCSVMissing
  | errorNoData
deriving DecidableEq, Repr

/-- Embeds `load_data` (source lines 36-51): prefer the store when an engine
exists, fall back to the CSV on store failure, and yield an empty dataset
plus a user-visible error when the CSV is absent. -/
def load_data (e : Env) : List RawRow × List Msg :=
  if engineConfigured e then
    match e.dbTable with
    | .ok rows => (rows, [Msg.infoLoadedDB])
    | .error err =>
      if e.csv_exists then (e.csvRows, [Msg.warnDBFailed err, Msg.infoLoadedCSV])
      else ([], [Msg.warnDBFailed err, Msg.errorCSVMissing])
  else
    if e.csv_exists then (e.csvRows, [Msg.infoLoadedCSV])
    else ([], [Msg.errorCSVMissing])

/-- Outcome of one scripted session run: either halted at the empty-data
check (source lines 56-58, `st.stop()`), or rendered with the normalized
then filtered table (source lines 60-165). -/
inductive SessionResult
  | halted (msgs : List Msg)
  | rendered (msgs : List Msg) (table : List Record) (shownCount : Nat)
deriving DecidableEq, Repr

/-- Top-to-bottom control flow of the script for one run: load, halt when
empty (before any cleaning), otherwise normalize, filter and render. -/
def runSession (e : Env) (fs : FilterSpec) : SessionResult :=
  let dm := load_data e
  if dm.1.isEmpty then SessionResult.halted (dm.2 ++ [Msg.errorNoData])
  else
    let recs := normalize dm.1
    let filteredRecs := applyFilters fs recs
    SessionResult.rendered dm.2 filteredRecs filteredRecs.length

/-- Outcome of the "Execute SQL Query" button handler. -/
inductive QueryOutcome
  | noStore (msg : String)
  | success (rows : List RawRow)
  | queryError (msg : String)
deriving DecidableEq, Repr

/-- Embeds the `run_query` handler (source lines 118-129).  `exec` is the
store's response to a query text (`Except.error` = raised exception).  The
handler is given the session's cached normalized dataset `ds` only to state
that it hands it back untouched: the Python block never reads `df`. -/
def runQueryHandler (e : Env) (exec : String → Except String (List RawRow))
    (ds : List Record) (q : String) : QueryOutcome × List Record :=
  if engineConfigured e then
    match exec q with
    | .ok rows => (QueryOutcome.success rows, ds)
    | .error err =>
      (QueryOutcome.queryError ("Query execution failed: " ++ err), ds)
  else
    (QueryOutcome.noStore
      "No DB credentials configured. Set environment variables or use Streamlit secrets.",
      ds)

/-! ## Helper lemmas -/

lemma mem_of_mem_pyStrip {c : Char} {cs : List Char} (h : c ∈ pyStrip cs) :
    c ∈ cs := by
  unfold pyStrip at h
  rw [List.mem_reverse] at h
  have h1 := (List.dropWhile_sublist pyIsSpace).subset h
  rw [List.mem_reverse] at h1
  exact (List.dropWhile_sublist pyIsSpace).subset h1

lemma readSign_fst_false {cs : List Char} (h : '-' ∉ cs) :
    (readSign cs).1 = false := by
  cases cs with
  | nil => rfl
  | cons c t =>
    have hc : ¬(c = '-') := fun e => h (by simp [e])
    simp only [readSign, if_neg hc]
    split <;> rfl

lemma parseFloat_m_nonneg {cs : List Char} {d : Dec} (h : '-' ∉ cs)
    (hp : parseFloat cs = some d) : 0 ≤ d.m := by
  have hs : (readSign cs).1 = false := readSign_fst_false h
  simp only [parseFloat, hs, Bool.false_eq_true, if_false] at hp
  rcases Option.map_eq_some'.mp hp with ⟨vf, _, hd⟩
  rw [← hd]
  exact Int.natCast_nonneg vf.1

lemma decTrunc_nonneg {d : Dec} (h : 0 ≤ d.m) : 0 ≤ decTrunc d := by
  unfold decTrunc
  split
  · exact mul_nonneg h (pow_nonneg (by norm_num) _)
  · exact Int.tdiv_nonneg h (pow_nonneg (by norm_num) _)

lemma votesCore_nonneg {s : List Char} (h : '-' ∉ s) : 0 ≤ votesCore s := by
  have hdrop : '-' ∉ s.dropLast :=
    fun hm => h ((List.dropLast_sublist s).subset hm)
  have hexcept : 0 ≤ (if (s.filter Char.isDigit).isEmpty then 0
      else ((digitsToNat (s.filter Char.isDigit) : Int))) := by
    split
    · exact le_refl 0
    · exact Int.natCast_nonneg _
  unfold votesCore
  split_ifs
  · cases hp : parseFloat s.dropLast with
    | some d =>
      have hm : 0 ≤ d.m := parseFloat_m_nonneg hdrop hp
      simpa [hp] using decTrunc_nonneg (d := ⟨d.m, d.k + 3⟩) hm
    | none => simpa [hp] using hexcept
  · cases hp : parseFloat s.dropLast with
    | some d =>
      have hm : 0 ≤ d.m := parseFloat_m_nonneg hdrop hp
      simpa [hp] using decTrunc_nonneg (d := ⟨d.m, d.k + 6⟩) hm
    | none => simpa [hp] using hexcept
  · cases hp : parseFloat s with
    | some d => simpa [hp] using decTrunc_nonneg (parseFloat_m_nonneg h hp)
    | none => simpa [hp] using hexcept

lemma endsWith_ne {cs : List Char} {a b : Char}
    (h : endsWithChar cs a = true) (hne : a ≠ b) :
    endsWithChar cs b = false := by
  unfold endsWithChar at h ⊢
  rw [beq_iff_eq] at h
  rw [h]
  simp [hne]

lemma matchNumTokenAt_mem {c : Char} {cs : List Char} {n : Nat}
    (h : matchNumTokenAt c cs = some n) : c ∈ cs := by
  simp only [matchNumTokenAt, List.span_eq_take_drop] at h
  by_cases he : (cs.takeWhile Char.isDigit).isEmpty
  · rw [if_pos he] at h
    exact absurd h (by simp)
  · rw [if_neg he] at h
    cases hd : (cs.dropWhile Char.isDigit).dropWhile pyIsSpace with
    | nil => rw [hd] at h; exact absurd h (by simp)
    | cons c' rest =>
      rw [hd] at h
      by_cases hc : c' = c
      · subst hc
        have hmem : c' ∈ (cs.dropWhile Char.isDigit).dropWhile pyIsSpace := by
          rw [hd]; exact List.mem_cons_self c' rest
        exact (List.dropWhile_sublist _).subset
          ((List.dropWhile_sublist _).subset hmem)
      · simp [hc] at h

lemma searchNumToken_eq_none {c : Char} :
    ∀ {cs : List Char}, c ∉ cs → searchNumToken c cs = none
  | [], _ => rfl
  | x :: t, h => by
    have h1 : matchNumTokenAt c (x :: t) = none := by
      cases hm : matchNumTokenAt c (x :: t) with
      | none => rfl
      | some n => exact absurd (matchNumTokenAt_mem hm) h
    have h2 : searchNumToken c t = none :=
      searchNumToken_eq_none (fun hm => h (List.mem_cons_of_mem x hm))
    simp [searchNumToken, h1, h2]

lemma begMatch_iff : ∀ (p l : List Char), begMatch p l = true ↔ ∃ t, l = p ++ t
  | [], l => by simp [begMatch]
  | a :: as, [] => by simp [begMatch]
  | a :: as, b :: bs => by
    simp only [begMatch, Bool.and_eq_true, beq_iff_eq, begMatch_iff as bs,
      List.cons_append, List.cons.injEq]
    constructor
    · rintro ⟨hab, t, ht⟩
      exact ⟨t, hab.symm, ht⟩
    · rintro ⟨t, hb, ht⟩
      exact ⟨hb.symm, t, ht⟩

lemma subMatch_iff :
    ∀ (p l : List Char), subMatch p l = true ↔ ∃ pre post, l = pre ++ p ++ post
  | p, [] => by
    simp only [subMatch, List.isEmpty_iff]
    constructor
    · rintro rfl
      exact ⟨[], [], rfl⟩
    · rintro ⟨pre, post, h⟩
      rcases List.append_eq_nil.mp h.symm with ⟨h1, h2⟩
      exact (List.append_eq_nil.mp h1).2
  | p, b :: bs => by
    simp only [subMatch, Bool.or_eq_true, begMatch_iff, subMatch_iff p bs]
    constructor
    · rintro (⟨t, ht⟩ | ⟨pre, post, h⟩)
      · exact ⟨[], t, by simp [ht]⟩
      · exact ⟨b :: pre, post, by simp [h]⟩
    · rintro ⟨pre, post, h⟩
      cases pre with
      | nil => exact Or.inl ⟨post, by simpa using h⟩
      | cons x xs =>
        rcases List.cons.injEq .. ▸ h with ⟨-, h2⟩
        exact Or.inr ⟨xs, post, by simpa using h2⟩

lemma applyGenre_eq_filter (g : String) (ds : List Record) :
    applyGenre g ds = ds.filter (fun r => g == "All" || genrePred g r) := by
  by_cases hg : g = "All"
  · subst hg
    simp [applyGenre]
  · have hb : (g == "All") = false := beq_eq_false_iff_ne.mpr hg
    simp [applyGenre, hg, hb]

lemma applyDuration_eq_filter (c : DurationChoice) (ds : List Record) :
    applyDuration c ds =
      ds.filter (fun r => c == DurationChoice.all || durationPred c r) := by
  by_cases hc : c = DurationChoice.all
  · subst hc
    simp [applyDuration, durationPred]
  · have hb : (c == DurationChoice.all) = false := beq_eq_false_iff_ne.mpr hc
    simp [applyDuration, hc, hb]

lemma applyFilters_eq_filter (fs : FilterSpec) (ds : List Record) :
    applyFilters fs ds = ds.filter (recordMatches fs) := by
  unfold applyFilters applyVotes applyRating
  rw [applyGenre_eq_filter, applyDuration_eq_filter]
  simp only [List.filter_filter]
  apply List.filter_congr
  intro r _
  unfold recordMatches
  cases hA : (fs.genre_choice == "All" || genrePred fs.genre_choice r) <;>
    cases hB : ratingPred fs.min_rating r <;>
    cases hC : votesPred fs.min_votes r <;>
    cases hD : (fs.duration_choice == DurationChoice.all
      || durationPred fs.duration_choice r) <;>
    rfl

/-! ## Claim theorems -/

/-- **C1** (corrected).  For every normalized vote string with a trailing
`K`/`k` whose prefix parses as a float, `votes_to_int` returns the prefix
times 1000 **truncated toward zero** (Python `int(...)`), and with a
trailing `M`/`m` the prefix times 1 000 000 truncated toward zero; the
original claim's `round` only coincides when the scaled value is an
integer.  The quoted examples hold: `"12.5K" -> 12500`, `"1.2M" -> 1200000`. -/
theorem votes_suffix_scales_and_truncates :
    (∀ (s : List Char) (d : Dec),
        (endsWithChar s 'K' || endsWithChar s 'k') = true →
        parseFloat s.dropLast = some d →
        votesCore s = decTrunc ⟨d.m, d.k + 3⟩) ∧
    (∀ (s : List Char) (d : Dec),
        (endsWithChar s 'M' || endsWithChar s 'm') = true →
        parseFloat s.dropLast = some d →
        votesCore s = decTrunc ⟨d.m, d.k + 6⟩) ∧
    votes_to_int (some "12.5K") = 12500 ∧
    votes_to_int (some "1.2M") = 1200000 := by
  refine ⟨?_, ?_, by decide, by decide⟩
  · intro s d h hp
    simp [votesCore, h, hp]
  · intro s d h hp
    have hK : (endsWithChar s 'K' || endsWithChar s 'k') = false := by
      rcases (Bool.or_eq_true _ _).mp h with h1 | h1 <;>
        simp [endsWith_ne (b := 'K') h1 (by decide),
          endsWith_ne (b := 'k') h1 (by decide)]
    simp [votesCore, hK, h, hp]

/-- **C1** witness: the K-branch theorem applied at `"12.5K"`, whose prefix
parses as `12.5 = 125 * 10 ^ (-1)`. -/
theorem votes_suffix_scales_witness :
    votesCore "12.5K".data = decTrunc ⟨125, -1 + 3⟩ :=
  votes_suffix_scales_and_truncates.1 "12.5K".data ⟨125, -1⟩
    (by decide) (by decide)

/-- **C1** counterexample: for `"0.0016K"` the numeric prefix is
`16 * 10 ^ (-4)`, so prefix * 1000 is 1.6; the code truncates to 1 while
the claimed `round` gives 2. -/
theorem votes_round_counterexample :
    parseFloat (pyStrip (removeCommas "0.0016K".data)).dropLast =
      some ⟨16, -4⟩ ∧
    votes_to_int (some "0.0016K") = 1 ∧
    decRound ⟨16, -4 + 3⟩ = 2 ∧
    votes_to_int (some "0.0016K") ≠ decRound ⟨16, -4 + 3⟩ := by decide

/-- **C2** (corrected).  `votes_to_int` is total (a defined integer for
every input, 0 for missing), gives 0 on the quoted parse-failure examples,
and normalizes `["1,200", "3K", "N/A"]` to `[1200, 3000, 0]`; but it is
only guaranteed non-negative for inputs without a `'-'` character — a
leading minus sign is parsed through by `int(float(s))`. -/
theorem votes_defined_and_nonneg_without_minus :
    (∀ s : String, '-' ∉ s.data → 0 ≤ votes_to_int (some s)) ∧
    votes_to_int none = 0 ∧
    votes_to_int (some "") = 0 ∧
    votes_to_int (some "abc") = 0 ∧
    votes_to_int (some "N/A") = 0 ∧
    ["1,200", "3K", "N/A"].map (fun s => votes_to_int (some s)) =
      [1200, 3000, 0] := by
  refine ⟨?_, by decide, by decide, by decide, by decide, by decide⟩
  intro s hs
  apply votesCore_nonneg
  intro hm
  exact hs (List.mem_filter.mp (mem_of_mem_pyStrip hm)).1

/-- **C2** witness: non-negativity applied at the concrete input `"1,200"`. -/
theorem votes_nonneg_witness : 0 ≤ votes_to_int (some "1,200") :=
  votes_defined_and_nonneg_without_minus.1 "1,200" (by decide)

/-- **C2** counterexample: the derived vote count of the string `"-5"` is
the negative integer -5, refuting "never negative" over all input strings. -/
theorem votes_negative_counterexample :
    votes_to_int (some "-5") = -5 ∧ ¬(0 ≤ votes_to_int (some "-5")) := by
  decide

/-- **C3** (confirmed).  Duration parsing searches the text independently
for an `<N>h` token and an `<N>m` token, returns hours*60 + minutes when
that total is positive and `none` (undefined) when it is 0 — the source's
`'h' in s` / `'m' in s` guards are redundant, since the token search fails
anyway when the letter is absent; and the quoted examples hold. -/
theorem duration_independent_token_sum :
    (∀ s : String,
        duration_to_minutes (some s) =
          if 0 < ((searchNumToken 'h' s.data).getD 0) * 60 +
              (searchNumToken 'm' s.data).getD 0
          then some (((searchNumToken 'h' s.data).getD 0) * 60 +
              (searchNumToken 'm' s.data).getD 0)
          else none) ∧
    duration_to_minutes (some "2h 15m") = some 135 ∧
    duration_to_minutes (some "1h") = some 60 ∧
    duration_to_minutes (some "45m") = some 45 ∧
    duration_to_minutes (some "") = none ∧
    duration_to_minutes (some "garbage") = none := by
  refine ⟨?_, by decide, by decide, by decide, by decide, by decide⟩
  intro s
  by_cases hh : hasChar s.data 'h' <;> by_cases hm : hasChar s.data 'm'
  · simp [duration_to_minutes, hh, hm]
  · have hm0 : searchNumToken 'm' s.data = none :=
      searchNumToken_eq_none (by simpa [hasChar] using hm)
    simp [duration_to_minutes, hh, hm, hm0]
  · have hh0 : searchNumToken 'h' s.data = none :=
      searchNumToken_eq_none (by simpa [hasChar] using hh)
    simp [duration_to_minutes, hh, hm, hh0]
  · have hm0 : searchNumToken 'm' s.data = none :=
      searchNumToken_eq_none (by simpa [hasChar] using hm)
    have hh0 : searchNumToken 'h' s.data = none :=
      searchNumToken_eq_none (by simpa [hasChar] using hh)
    simp [duration_to_minutes, hh, hm, hh0, hm0]

/-! ## Example data for witnesses and scenario checks -/

/-- Scenario record with missing rating. -/
def exRecNoRating : Record := ⟨"m1", some "Drama", none, 0, none⟩

/-- Scenario record with rating 7.9. -/
def exRec79 : Record := ⟨"m2", some "Drama", some (mkRat 79 10), 0, none⟩

/-- Scenario record with rating 8.0. -/
def exRec80 : Record := ⟨"m3", some "Drama", some (mkRat 8 1), 0, none⟩

/-- Scenario record with rating 9.1 and a 90-minute duration. -/
def exRec91 : Record := ⟨"m4", some "Action, Drama", some (mkRat 91 10), 0, some 90⟩

/-- **C4** (confirmed).  For a strictly positive threshold the rating filter
keeps a record exactly when its `rating` is defined and at least the
threshold (missing ratings never match, because `fillna(0)` compares 0);
for threshold 0 every record of the data model (`rating_numeric` in `[0,10]`
or missing) passes; and the quoted scenario holds: threshold 8.0 over
ratings `[missing, 7.9, 8.0, 9.1]` keeps exactly the 8.0 and 9.1 records. -/
theorem min_rating_filter_semantics :
    (∀ (r : Record) (t : ℚ), 0 < t →
        (ratingPred t r = true ↔ ∃ q, r.rating = some q ∧ t ≤ q)) ∧
    (∀ r : Record, (∀ q, r.rating = some q → 0 ≤ q) → ratingPred 0 r = true) ∧
    applyRating (mkRat 8 1) [exRecNoRating, exRec79, exRec80, exRec91] =
      [exRec80, exRec91] := by
  refine ⟨?_, ?_, by decide⟩
  · intro r t ht
    cases hr : r.rating with
    | none =>
      simp only [ratingPred, hr, Option.getD_none, decide_eq_true_eq]
      constructor
      · intro hle
        exact absurd hle ht.not_le
      · rintro ⟨q, hq, -⟩
        cases hq
    | some q =>
      simp [ratingPred, hr]
  · intro r h
    cases hr : r.rating with
    | none => simp [ratingPred, hr]
    | some q => simp [ratingPred, hr, h q hr]

/-- **C4** witness: the positive-threshold equivalence applied to the
record with rating 9.1 at threshold 8.0. -/
theorem min_rating_filter_witness :
    ratingPred (mkRat 8 1) exRec91 = true ↔
      ∃ q, exRec91.rating = some q ∧ mkRat 8 1 ≤ q :=
  min_rating_filter_semantics.1 exRec91 (mkRat 8 1) (by decide)

/-- **C5** (confirmed).  A non-"All" duration bucket keeps a record exactly
when its `duration_min` is defined and lies in the bucket's range
(`< 120`, `[120, 180]`, `> 180`); a record with undefined duration never
matches a non-"All" bucket; and the non-"All" stage is a filter by the
bucket predicate. -/
theorem duration_bucket_semantics :
    (∀ (r : Record) (c : DurationChoice), c ≠ DurationChoice.all →
        (durationPred c r = true ↔ ∃ d, r.duration_min = some d ∧
          (match c with
           | DurationChoice.all => False
           | DurationChoice.under2h => d < 120
           | DurationChoice.from2to3h => 120 ≤ d ∧ d ≤ 180
           | DurationChoice.over3h => 180 < d))) ∧
    (∀ (r : Record) (c : DurationChoice), c ≠ DurationChoice.all →
        r.duration_min = none → durationPred c r = false) ∧
    (∀ (c : DurationChoice) (ds : List Record), c ≠ DurationChoice.all →
        applyDuration c ds = ds.filter (durationPred c)) := by
  refine ⟨?_, ?_, ?_⟩
  · intro r c hc
    cases c with
    | all => exact absurd rfl hc
    | under2h => cases hr : r.duration_min <;> simp [durationPred, hr]
    | from2to3h => cases hr : r.duration_min <;> simp [durationPred, hr]
    | over3h => cases hr : r.duration_min <;> simp [durationPred, hr]
  · intro r c hc hr
    cases c with
    | all => exact absurd rfl hc
    | under2h => simp [durationPred, hr]
    | from2to3h => simp [durationPred, hr]
    | over3h => simp [durationPred, hr]
  · intro c ds hc
    simp [applyDuration, hc]

/-- **C5** witness: the bucket equivalence applied to the 90-minute record
with the under-2-hours bucket. -/
theorem duration_bucket_witness :
    durationPred DurationChoice.under2h exRec91 = true ↔
      ∃ d, exRec91.duration_min = some d ∧ d < 120 :=
  duration_bucket_semantics.1 exRec91 DurationChoice.under2h (by decide)

/-- **C6** (confirmed).  With an active genre selection (the selectbox
offers a single label, so the selected set is the singleton `[g]`), a
record is kept exactly when its genre string (missing mapped to `""`)
contains some selected label as a case-insensitive substring — containment
semantics, not exact equality; and the active genre stage is a filter. -/
theorem genre_filter_semantics :
    (∀ (r : Record) (g : String), g ≠ "All" →
        (genrePred g r = true ↔ ∃ l ∈ [g], ∃ pre post,
          (r.genre.getD "").data.map Char.toLower =
            pre ++ l.data.map Char.toLower ++ post)) ∧
    (∀ (g : String) (ds : List Record), g ≠ "All" →
        applyGenre g ds = ds.filter (genrePred g)) := by
  constructor
  · intro r g _
    simp only [genrePred, ciContains, subMatch_iff, List.mem_singleton]
    constructor
    · rintro ⟨pre, post, hsplit⟩
      exact ⟨g, rfl, pre, post, hsplit⟩
    · rintro ⟨l, rfl, pre, post, hsplit⟩
      exact ⟨pre, post, hsplit⟩
  · intro g ds hg
    simp [applyGenre, hg]

/-- **C6** witness: the containment equivalence applied to the record with
genre `"Action, Drama"` and the selected label `"drama"`. -/
theorem genre_filter_witness :
    genrePred "drama" exRec91 = true ↔ ∃ l ∈ ["drama"], ∃ pre post,
      (exRec91.genre.getD "").data.map Char.toLower =
        pre ++ l.data.map Char.toLower ++ post :=
  genre_filter_semantics.1 exRec91 "drama" (by decide)

/-- **C7** (confirmed).  The filter block equals a single filter by the
conjunction (logical AND) of the four predicates; applying the same
`FilterSpec` twice equals applying it once; and the genre and rating stages
commute. -/
theorem filters_and_idempotent_commutative :
    (∀ (fs : FilterSpec) (ds : List Record),
        applyFilters fs ds = ds.filter (recordMatches fs)) ∧
    (∀ (fs : FilterSpec) (ds : List Record),
        applyFilters fs (applyFilters fs ds) = applyFilters fs ds) ∧
    (∀ (g : String) (t : ℚ) (ds : List Record),
        applyGenre g (applyRating t ds) = applyRating t (applyGenre g ds)) := by
  refine ⟨applyFilters_eq_filter, ?_, ?_⟩
  · intro fs ds
    rw [applyFilters_eq_filter, applyFilters_eq_filter, List.filter_filter]
    exact List.filter_congr (fun r _ => Bool.and_self (recordMatches fs r))
  · intro g t ds
    unfold applyRating
    rw [applyGenre_eq_filter, applyGenre_eq_filter, List.filter_filter,
      List.filter_filter]
    exact List.filter_congr (fun r _ => Bool.and_comm ..)

/-- **C10** (confirmed).  The filter output is an order-preserving
subsequence (`List.Sublist`) of the input dataset: every output record is
an unchanged member of the input, multiplicities never grow (so no record
is duplicated), relative order is preserved, and the input list itself is
untouched (the stages are pure `List.filter`s of it). -/
theorem filter_output_is_subsequence :
    ∀ (fs : FilterSpec) (ds : List Record),
      List.Sublist (applyFilters fs ds) ds ∧
      (∀ r ∈ applyFilters fs ds, r ∈ ds) ∧
      (∀ r : Record, (applyFilters fs ds).count r ≤ ds.count r) ∧
      (ds.Nodup → (applyFilters fs ds).Nodup) := by
  intro fs ds
  have hsub : List.Sublist (applyFilters fs ds) ds := by
    rw [applyFilters_eq_filter]
    exact List.filter_sublist ds
  exact ⟨hsub, fun r hr => hsub.subset hr, fun r => hsub.count_le r,
    fun hnd => hnd.sublist hsub⟩

/-- **C10** witness: no-duplication applied to a concrete one-record
dataset with the always-pass `FilterSpec`. -/
theorem filter_output_is_subsequence_witness :
    (applyFilters ⟨"All", 0, 0, DurationChoice.all⟩ [exRec80]).Nodup :=
  (filter_output_is_subsequence ⟨"All", 0, 0, DurationChoice.all⟩
    [exRec80]).2.2.2 (by decide)

/-- Environment with no credentials, an unreachable store and no fallback
CSV file. -/
def exEnvNothing : Env := ⟨none, none, none, none, Except.error "conn refused", false, []⟩

/-- Environment with full credentials, a failing store and no CSV. -/
def exEnvCreds : Env :=
  ⟨some "u", some "p", none, some "db", Except.error "conn refused", false, []⟩

/-- An always-pass filter specification. -/
def exFilterAll : FilterSpec := ⟨"All", 0, 0, DurationChoice.all⟩

/-- **C8** (confirmed).  When the remote store is unreachable (or not
configured) and the fallback file is absent, `load_data` surfaces a
user-visible error and yields an empty dataset of length 0, and the session
halts at the empty-data check — before any normalization, filter or chart
step runs. -/
theorem failed_load_yields_empty_and_halts :
    ∀ (e : Env) (fs : FilterSpec),
      (engineConfigured e = false ∨ ∃ err, e.dbTable = Except.error err) →
      e.csv_exists = false →
      (load_data e).1.length = 0 ∧
      Msg.errorCSVMissing ∈ (load_data e).2 ∧
      ∃ msgs, runSession e fs = SessionResult.halted msgs ∧
        Msg.errorNoData ∈ msgs := by
  intro e fs hsrc hcsv
  have hload : (load_data e).1 = [] ∧ Msg.errorCSVMissing ∈ (load_data e).2 := by
    rcases hsrc with heng | ⟨err, herr⟩
    · simp [load_data, heng, hcsv]
    · by_cases heng : engineConfigured e
      · simp [load_data, heng, herr, hcsv]
      · simp [load_data, heng, hcsv]
  refine ⟨by rw [hload.1]; rfl, hload.2,
    (load_data e).2 ++ [Msg.errorNoData], ?_, by simp⟩
  simp [runSession, hload.1]

/-- **C8** witness: the halt theorem applied to the concrete environment
with no credentials and no CSV. -/
theorem failed_load_witness :
    (load_data exEnvNothing).1.length = 0 ∧
    Msg.errorCSVMissing ∈ (load_data exEnvNothing).2 ∧
    ∃ msgs, runSession exEnvNothing exFilterAll = SessionResult.halted msgs ∧
      Msg.errorNoData ∈ msgs :=
  failed_load_yields_empty_and_halts exEnvNothing exFilterAll
    (Or.inl (by decide)) rfl

/-- **C9** (confirmed).  The query handler hands the cached normalized
dataset back unchanged and its outcome never depends on it (it neither
consults nor updates it); with no store credentials it fails with the
no-store error, and when execution fails it fails with a query error whose
message carries the underlying store error text. -/
theorem query_handler_error_semantics :
    ∀ (e : Env) (exec : String → Except String (List RawRow))
      (ds : List Record) (q : String),
      (runQueryHandler e exec ds q).2 = ds ∧
      (runQueryHandler e exec ds q).1 = (runQueryHandler e exec [] q).1 ∧
      (engineConfigured e = false →
        (runQueryHandler e exec ds q).1 = QueryOutcome.noStore
          "No DB credentials configured. Set environment variables or use Streamlit secrets.") ∧
      (∀ err, engineConfigured e = true → exec q = Except.error err →
        (runQueryHandler e exec ds q).1 =
          QueryOutcome.queryError ("Query execution failed: " ++ err)) := by
  intro e exec ds q
  refine ⟨?_, ?_, ?_, ?_⟩
  · unfold runQueryHandler
    split
    · cases exec q <;> rfl
    · rfl
  · unfold runQueryHandler
    split
    · cases exec q <;> rfl
    · rfl
  · intro heng
    simp [runQueryHandler, heng]
  · intro err heng hq
    simp [runQueryHandler, heng, hq]

/-- **C9** witness: the handler applied to a configured environment whose
store raises, with a nonempty cached dataset. -/
theorem query_handler_witness :
    (runQueryHandler exEnvCreds (fun _ => Except.error "syntax error")
        [exRec80] "SELECT 1").1 =
      QueryOutcome.queryError ("Query execution failed: " ++ "syntax error") :=
  (query_handler_error_semantics exEnvCreds
    (fun _ => Except.error "syntax error") [exRec80] "SELECT 1").2.2.2
    "syntax error" (by decide) rfl

end IMDB
